import Mathlib

set_option maxHeartbeats 1000000

open List

/- Shallow embedding of the lottery cache and synchronization engine of the
   repository: src/services/dataManager.js (LotteryDataManager), the
   serverless sync handler, and the downloadRecent script.  Machine details
   that the claims do not touch (HTTP transport, console logging text,
   timestamps) are abstracted; every function below is translated from the
   JavaScript source named in its doc comment. -/

/-- One draw record in the internal format produced by transformAPIData
(dataManager.js lines 204 to 212).  The data field is an Option because the
JavaScript expression dataApuracao or dataRealizacao can be undefined when
both payload fields are absent. -/
structure Draw where
  concurso : Int
  data : Option String
  numeros : List Int
  acumulado : Bool
  valorEstimadoProximoConcurso : Int
  dataProximoConcurso : Option String
deriving DecidableEq, Repr

/-- Per lottery configuration (LOTTERY_CONFIGS in dataManager.js lines 9 to 38).
The apiUrl field is dropped: it only feeds the HTTP layer. -/
structure LotteryConfig where
  id : String
  name : String
  numbersCount : Nat
  minNumber : Int
  maxNumber : Int
  cacheFile : String
deriving DecidableEq, Repr

/-- The lotofacil entry of LOTTERY_CONFIGS. -/
def lotofacilConfig : LotteryConfig :=
  ⟨"lotofacil", "Lotofacil", 15, 1, 25, "data/lotofacil.json"⟩

/-- The megasena entry of LOTTERY_CONFIGS. -/
def megasenaConfig : LotteryConfig :=
  ⟨"megasena", "Mega-Sena", 6, 1, 60, "data/megasena.json"⟩

/-- A raw API payload as consumed by transformAPIData.  Each entry of the
dezenas arrays is the result of parseInt on the payload string: some n when
the string parses to the integer n, none when parseInt yields NaN.  Absent
object members are none. -/
structure APIData where
  numero : Int
  listaDezenas : Option (List (Option Int))
  dezenasSorteadasOrdemSorteio : Option (List (Option Int))
  dataApuracao : Option String
  dataRealizacao : Option String
  acumulado : Option Bool
  valorEstimadoProximoConcurso : Option Int
  dataProximoConcurso : Option String
deriving DecidableEq, Repr

/-- Ascending sort of draws by contest number, as performed by the JavaScript
comparator sort((a, b) => a.concurso - b.concurso).  Insertion sort is used
as the model; only sortedness and the permutation property matter. -/
def sortDraws (l : List Draw) : List Draw :=
  List.insertionSort (fun a b => a.concurso ≤ b.concurso) l

/-- Ascending numeric sort, the model of sort((a, b) => a - b) on numbers. -/
def sortInts (l : List Int) : List Int :=
  List.insertionSort (fun a b => a ≤ b) l

/-- The incoming draws that survive deduplication in mergeDraws
(dataManager.js lines 340 to 341): newDraws.filter of not
existingContests.has(d.concurso), where existingContests is the Set of the
existing contest numbers. -/
def newUnique (existingDraws newDraws : List Draw) : List Draw :=
  newDraws.filter
    (fun d => decide (d.concurso ∉ existingDraws.map (fun x => x.concurso)))

/-- LotteryDataManager.mergeDraws (dataManager.js lines 339 to 344):
existing draws concatenated with the deduplicated new draws, sorted
ascending by concurso. -/
def mergeDraws (existingDraws newDraws : List Draw) : List Draw :=
  sortDraws (existingDraws ++ newUnique existingDraws newDraws)

/-- The draws array written by saveToCache (dataManager.js line 119):
draws.sort((a, b) => a.concurso - b.concurso). -/
def savedDraws (draws : List Draw) : List Draw :=
  sortDraws draws

/-- The drawn numbers array selected by transformAPIData (dataManager.js
line 188): apiData.listaDezenas or apiData.dezenasSorteadasOrdemSorteio
or the empty array.  A present empty array is truthy in JavaScript, so only
an absent member falls through. -/
def numbersOf (apiData : APIData) : List (Option Int) :=
  match apiData.listaDezenas with
  | some xs => xs
  | none =>
    match apiData.dezenasSorteadasOrdemSorteio with
    | some ys => ys
    | none => []

/-- One step of the map parseInt plus filter of dataManager.js lines 195 to
197: keep an entry when parseInt produced an integer inside the configured
range, drop NaN and out of range entries. -/
def coerceValid (config : LotteryConfig) (entry : Option Int) : Option Int :=
  match entry with
  | none => none
  | some n =>
    if config.minNumber ≤ n ∧ n ≤ config.maxNumber then some n else none

/-- The valid in range entries of a dezenas array (dataManager.js lines 195
to 197 applied to a list). -/
def validNums (config : LotteryConfig) (numbers : List (Option Int)) : List Int :=
  numbers.filterMap (coerceValid config)

/-- LotteryDataManager.transformAPIData (dataManager.js lines 186 to 217).
The Array.isArray guard is always satisfied in this typed model; the two
null returns correspond to the count check on the raw array and to the
count check after range filtering. -/
def transformAPIData (config : LotteryConfig) (apiData : APIData) : Option Draw :=
  let numbers := numbersOf apiData
  if numbers.length < config.numbersCount then
    none
  else
    let validNumbers := validNums config (numbers.take config.numbersCount)
    if validNumbers.length ≠ config.numbersCount then
      none
    else
      some ⟨apiData.numero,
            (match apiData.dataApuracao with
             | some s => some s
             | none => apiData.dataRealizacao),
            sortInts validNumbers,
            apiData.acumulado.getD false,
            apiData.valorEstimadoProximoConcurso.getD 0,
            apiData.dataProximoConcurso⟩

/-- The fixed batch size of fetchContestsInBatches (dataManager.js line 300). -/
def batchSize : Nat := 5

/-- The per contest pipeline inside a batch (dataManager.js lines 309 to
317): fetchFromAPI followed by transformAPIData, with any fetch failure
caught and turned into null.  The api argument is the oracle for the remote
feed: none models a fetch that threw after the HTTP layer gave up. -/
def fetchOne (config : LotteryConfig) (api : Int → Option APIData)
    (contestNumber : Int) : Option Draw :=
  match api contestNumber with
  | none => none
  | some apiData => transformAPIData config apiData

/-- The batch partition produced by the loop of fetchContestsInBatches
(dataManager.js lines 304 to 305): slices of batchSize consecutive contest
numbers, the last slice holding the remainder. -/
def batches (contestNumbers : List Int) : List (List Int) :=
  if h : contestNumbers = [] then []
  else
    contestNumbers.take batchSize :: batches (contestNumbers.drop batchSize)
termination_by contestNumbers.length
decreasing_by
  have hpos : 0 < contestNumbers.length := List.length_pos.mpr h
  simp only [List.length_drop, batchSize]
  omega

/-- LotteryDataManager.fetchContestsInBatches (dataManager.js lines 299 to
331).  First component: the collected valid draws (null results filtered
out, line 320).  Second component: one Boolean per batch, true when the
inter batch delay of line 325 runs after that batch, that is when
i + batchSize < contestNumbers.length, equivalently when the remaining
suffix is nonempty. -/
def fetchContestsInBatches (config : LotteryConfig) (api : Int → Option APIData)
    (contestNumbers : List Int) : List Draw × List Bool :=
  if h : contestNumbers = [] then ([], [])
  else
    let batch := contestNumbers.take batchSize
    let rest := contestNumbers.drop batchSize
    let validDraws := batch.filterMap (fetchOne config api)
    let next := fetchContestsInBatches config api rest
    (validDraws ++ next.1, (!rest.isEmpty) :: next.2)
termination_by contestNumbers.length
decreasing_by
  have hpos : 0 < contestNumbers.length := List.length_pos.mpr h
  simp only [List.length_drop, batchSize]
  omega

/-- The contests of a cycle for which the pipeline produced no record.
These are exactly the contests reported through console.warn by the code
(dataManager.js lines 191, 200 and 314): a null from transformAPIData or a
caught fetch error, and nothing else, drops a contest. -/
def failedContests (config : LotteryConfig) (api : Int → Option APIData)
    (contestNumbers : List Int) : List Int :=
  contestNumbers.filter (fun c => (fetchOne config api c).isNone)

/-- The integer range built by Array.from with length stop - start + 1 and
mapper (u, i) => start + i (dataManager.js lines 247 to 250 and 256 to 259).
A nonpositive length yields the empty array, as in JavaScript. -/
def rangeInt (start stop : Int) : List Int :=
  (List.range (stop - start + 1).toNat).map (fun i : Nat => start + (i : Int))

/-- Math.max over the contest numbers of a nonempty draws list
(dataManager.js line 253).  The empty case returns 0; every caller guards
it, since Math.max of an empty spread would be negative infinity. -/
def maxConcurso (draws : List Draw) : Int :=
  match draws with
  | [] => 0
  | d :: ds => ds.foldl (fun m x => max m x.concurso) d.concurso

/-- The contestsToFetch computation of LotteryDataManager.syncData
(dataManager.js lines 239 to 265).  Force or empty cache: the whole range
from contest 1 to the latest.  Otherwise only the trailing range after the
highest cached contest; when the API is not ahead the method returns early
with no fetch, modelled as the empty list. -/
def syncContestsToFetch (forceFullSync : Bool) (existingDraws : List Draw)
    (latestContestNumber : Int) : List Int :=
  if forceFullSync || existingDraws.isEmpty then
    rangeInt 1 latestContestNumber
  else
    let lastCachedContest := maxConcurso existingDraws
    if lastCachedContest < latestContestNumber then
      rangeInt (lastCachedContest + 1) latestContestNumber
    else
      []

/-- The contest range fetched by the downloadRecent script after it
overrides syncData (lines 32 to 37 of its source): the last 1000 contests,
Math.max(1, latest - 999) up to latest. -/
def downloadRecentContests (latestContestNumber : Int) : List Int :=
  rangeInt (max 1 (latestContestNumber - 999)) latestContestNumber

/-- File system operations issued by saveToCache: a recursive directory
creation and a plain file write. -/
inductive FileOp where
  | mkdirp (dir : String)
  | write (path : String) (content : String)
deriving DecidableEq, Repr

/-- The on disk location of a cache file: path.flatten of the public directory
and config.cacheFile (dataManager.js line 131). -/
def cachePath (config : LotteryConfig) : String :=
  "public/" ++ config.cacheFile

/-- The file system operations performed by saveToCache (dataManager.js
lines 134 to 137): fs.mkdir on the parent directory, then one direct
fs.writeFile of the serialized document to the final path.  The mkdir
target is the dirname of the path; since a mkdir never alters file
contents, the model keys it by the file path itself. -/
def saveToCacheOps (config : LotteryConfig) (serialized : String) : List FileOp :=
  [FileOp.mkdirp (cachePath config), FileOp.write (cachePath config) serialized]

/-- Effect of one file operation on the store, a map from path to content. -/
def applyOp (s : String → Option String) : FileOp → (String → Option String)
  | FileOp.mkdirp _ => s
  | FileOp.write p c => fun q => if q = p then some c else s q

/-- Run a list of file operations to completion. -/
def runOps (s : String → Option String) (ops : List FileOp) : String → Option String :=
  ops.foldl applyOp s

/-- The observable store when execution is interrupted during operation k:
all earlier operations have completed and, when operation k is a write, its
target may hold arbitrary partial content. -/
def runInterrupted (s : String → Option String) (ops : List FileOp) (k : Nat)
    (partialContent : String) : String → Option String :=
  let before := runOps s (ops.take k)
  match ops[k]? with
  | some (FileOp.write p _) => fun q => if q = p then some partialContent else before q
  | _ => before

/-- The target path of a write operation, none for other operations. -/
def writeTarget : FileOp → Option String
  | FileOp.write p _ => some p
  | _ => none

/-- A store holding prior content at the lotofacil cache path. -/
def exampleFs : String → Option String :=
  fun q => if q = cachePath lotofacilConfig then some "OLD" else none

/-- JSON values, the possible results of JSON.parse. -/
inductive JVal where
  | jnull
  | jbool (b : Bool)
  | jnum (n : Int)
  | jstr (s : String)
  | jarr (elems : List JVal)
  | jobj (fields : List (String × JVal))

/-- First binding of a key in a JSON object. -/
def lookupField : List (String × JVal) → String → Option JVal
  | [], _ => none
  | (k, v) :: rest, f => if k = f then some v else lookupField rest f

/-- JavaScript member access as used in loadFromCache: accessOK v f is
some w when v.f yields a defined non null value w, so that a further member
access on w cannot throw.  It is none when the access itself throws (v is
null) or when it yields undefined or null (missing member, or primitive or
array base), in which case the chained access in the source throws. -/
def accessOK (v : JVal) (f : String) : Option JVal :=
  match v with
  | JVal.jobj fields =>
    match lookupField fields f with
    | some JVal.jnull => none
    | some w => some w
    | none => none
  | _ => none

/-- Outcome of reading and parsing the cache file, the input states of
loadFromCache (dataManager.js lines 66 to 83): missing file (ENOENT),
other read error, JSON.parse failure, or a parsed document. -/
inductive FileState where
  | missing
  | readError
  | parseError
  | parsed (v : JVal)

/-- The empty collection literal returned on every failure path of
loadFromCache (dataManager.js lines 82, 89 and 102). -/
def emptyCollection : JVal :=
  JVal.jobj
    [("draws", JVal.jarr []),
     ("metadata", JVal.jobj [("lastUpdate", JVal.jnull), ("totalDraws", JVal.jnum 0)])]

/-- LotteryDataManager.loadFromCache, Node branch (dataManager.js lines 54
to 104).  A read error, parse error or missing file returns the empty
collection via the catch blocks.  A parsed document is returned as is when
the accesses data.draws.length and data.metadata.lastUpdate succeed, that
is when both members exist and are non null; otherwise the thrown TypeError
lands in the same catch and the empty collection is returned. -/
def loadFromCache : FileState → JVal
  | FileState.parsed v =>
    match accessOK v "draws", accessOK v "metadata" with
    | some _, some _ => v
    | _, _ => emptyCollection
  | _ => emptyCollection

/-- Follows the words of the spec, store format section: the draws member
of a persisted store must be a JSON array.  Used only to exhibit that a
concrete document is malformed in the sense of the spec. -/
def specStoreDrawsIsArray (v : JVal) : Bool :=
  match v with
  | JVal.jobj fields =>
    match lookupField fields "draws" with
    | some (JVal.jarr _) => true
    | _ => false
  | _ => false

/-- A syntactically valid JSON document that is malformed as a store: its
draws member is a string.  Member accesses on it succeed, so loadFromCache
returns it unchanged. -/
def malformedStore : JVal :=
  JVal.jobj [("draws", JVal.jstr "corrupted"), ("metadata", JVal.jobj [])]

/-- Helper for concrete draw records. -/
def mkDraw (c : Int) (nums : List Int) : Draw :=
  ⟨c, some "2024-01-01", nums, false, 0, none⟩

/-- Concrete record A with contest number 1. -/
def drawA : Draw := mkDraw 1 [1, 2, 3]

/-- Concrete record B, same contest number 1 but different content. -/
def drawB : Draw := ⟨1, some "2024-01-02", [4, 5, 6], true, 10, none⟩

/-- Concrete record C with contest number 2. -/
def drawC : Draw := mkDraw 2 [7, 8, 9]

/-- A cache holding contests 1, 2, 4 and 5, the gap detection example of
the spec. -/
def exDraws1 : List Draw :=
  [mkDraw 1 [1], mkDraw 2 [1], mkDraw 4 [1], mkDraw 5 [1]]

instance : IsTotal Draw (fun a b => a.concurso ≤ b.concurso) :=
  ⟨fun a b => le_total a.concurso b.concurso⟩

instance : IsTrans Draw (fun a b => a.concurso ≤ b.concurso) :=
  ⟨fun _ _ _ hab hbc => le_trans hab hbc⟩

/-- A lotofacil payload carrying only 14 numbers (all valid) where 15 are
required: the validation rejection example of the spec. -/
def pay14 : APIData :=
  ⟨7,
   some [some 1, some 2, some 3, some 4, some 5, some 6, some 7, some 8,
         some 9, some 10, some 11, some 12, some 13, some 14],
   none, some "2024-01-05", none, some false, some 0, none⟩

/-- A feed oracle that serves pay14 for contest 7 and fails elsewhere. -/
def api14 : Int → Option APIData :=
  fun c => if c = 7 then some pay14 else none

/-- A lotofacil payload with 15 in range entries containing the duplicate
number 1 twice. -/
def payDup : APIData :=
  ⟨3001,
   some [some 1, some 1, some 2, some 3, some 4, some 5, some 6, some 7,
         some 8, some 9, some 10, some 11, some 12, some 13, some 14],
   none, some "2024-02-02", none, some false, some 0, none⟩

/-- A well formed lotofacil payload with the 15 numbers 1 to 15, listed
slightly out of order. -/
def pay15 : APIData :=
  ⟨3002,
   some [some 2, some 1, some 3, some 4, some 5, some 6, some 7, some 8,
         some 9, some 10, some 11, some 12, some 13, some 14, some 15],
   none, some "2024-02-03", none, some true, some 0, none⟩

/-- The record transformAPIData produces from pay15. -/
def rec15 : Draw :=
  ⟨3002, some "2024-02-03",
   [1, 2, 3, 4, 5, 6, 7, 8, 9, 10, 11, 12, 13, 14, 15], true, 0, none⟩

/- ===== Helper lemmas ===== -/

theorem sortDraws_perm (l : List Draw) : List.Perm (sortDraws l) l :=
  List.perm_insertionSort _ l

theorem sortDraws_pairwise (l : List Draw) :
    (sortDraws l).Pairwise (fun a b => a.concurso ≤ b.concurso) :=
  List.sorted_insertionSort _ l

theorem mergeDraws_perm (e n : List Draw) :
    List.Perm (mergeDraws e n) (e ++ newUnique e n) :=
  sortDraws_perm _

theorem mem_newUnique {e n : List Draw} {d : Draw} :
    d ∈ newUnique e n ↔ d ∈ n ∧ d.concurso ∉ e.map (fun x => x.concurso) := by
  simp [newUnique, List.mem_filter]

/- ===== Claim C5 ===== -/

/-- Claim C5: the set of contest numbers of mergeDraws existing incoming is
the union of the contest number sets of the two inputs. -/
theorem mergeDraws_union (e n : List Draw) (c : Int) :
    c ∈ (mergeDraws e n).map (fun d => d.concurso) ↔
      c ∈ e.map (fun d => d.concurso) ∨ c ∈ n.map (fun d => d.concurso) := by
  have hperm := (mergeDraws_perm e n).map (fun d => d.concurso)
  rw [hperm.mem_iff, List.map_append, List.mem_append]
  constructor
  · rintro (h | h)
    · exact Or.inl h
    · rcases List.mem_map.mp h with ⟨d, hd, rfl⟩
      exact Or.inr (List.mem_map.mpr ⟨d, (mem_newUnique.mp hd).1, rfl⟩)
  · rintro (h | h)
    · exact Or.inl h
    · by_cases hce : c ∈ e.map (fun d => d.concurso)
      · exact Or.inl hce
      · rcases List.mem_map.mp h with ⟨d, hd, rfl⟩
        exact Or.inr (List.mem_map.mpr ⟨d, mem_newUnique.mpr ⟨hd, hce⟩, rfl⟩)

/- ===== Claim C4 ===== -/

/-- Claim C4: merge deduplicates by contest number with the existing wins
policy.  Every existing record survives into the merge, and whenever c is a
contest number already present in existing, every merged record carrying c
is one of the existing records, never a new incoming one. -/
theorem mergeDraws_existing_wins (e n : List Draw) (c : Int)
    (hc : c ∈ e.map (fun d => d.concurso)) :
    (∀ d ∈ e, d ∈ mergeDraws e n) ∧
    (∀ d ∈ mergeDraws e n, d.concurso = c → d ∈ e) := by
  have hperm := mergeDraws_perm e n
  constructor
  · intro d hd
    exact hperm.mem_iff.mpr (List.mem_append_left _ hd)
  · intro d hd hdc
    rcases List.mem_append.mp (hperm.mem_iff.mp hd) with h | h
    · exact h
    · have hnot := (mem_newUnique.mp h).2
      exact absurd (show d.concurso ∈ e.map (fun x => x.concurso) by
        rw [hdc]; exact hc) hnot

/-- Witness for claim C4 at the concrete input of the spec example: merging
record A (contest 1) against incoming B (contest 1) and C (contest 2)
yields exactly the two records A and C, and the contest 1 record equals A. -/
theorem mergeDraws_existing_wins_witness :
    mergeDraws [drawA] [drawB, drawC] = [drawA, drawC] ∧
    ((1 : Int) ∈ [drawA].map (fun d => d.concurso) ∧
      ((∀ d ∈ [drawA], d ∈ mergeDraws [drawA] [drawB, drawC]) ∧
       (∀ d ∈ mergeDraws [drawA] [drawB, drawC], d.concurso = 1 → d ∈ [drawA]))) :=
  ⟨by decide, by decide, mergeDraws_existing_wins [drawA] [drawB, drawC] 1 (by decide)⟩

/- ===== Claim C3 ===== -/

/-- Claim C3: after a sync cycle (mergeDraws followed by the sort inside
saveToCache), contest numbers are unique and strictly increasing by list
position, provided each input list had pairwise distinct contest numbers. -/
theorem syncMergeSave_strict_ascending (e n : List Draw)
    (he : (e.map (fun d => d.concurso)).Nodup)
    (hn : (n.map (fun d => d.concurso)).Nodup) :
    ((savedDraws (mergeDraws e n)).map (fun d => d.concurso)).Pairwise (· < ·) := by
  have hperm : List.Perm (savedDraws (mergeDraws e n)) (e ++ newUnique e n) :=
    (sortDraws_perm _).trans (mergeDraws_perm e n)
  have hkeysperm := hperm.map (fun d => d.concurso)
  have hnd_append : ((e ++ newUnique e n).map (fun d => d.concurso)).Nodup := by
    rw [List.map_append]
    refine List.Nodup.append he ?_ ?_
    · exact hn.sublist ((List.filter_sublist n).map _)
    · intro a hae han
      rcases List.mem_map.mp han with ⟨d, hd, rfl⟩
      exact (mem_newUnique.mp hd).2 hae
  have hnd : ((savedDraws (mergeDraws e n)).map (fun d => d.concurso)).Nodup :=
    hkeysperm.nodup_iff.mpr hnd_append
  have hsorted : (savedDraws (mergeDraws e n)).Pairwise
      (fun a b => a.concurso ≤ b.concurso) := sortDraws_pairwise _
  have hmaple : ((savedDraws (mergeDraws e n)).map (fun d => d.concurso)).Pairwise
      (· ≤ ·) := hsorted.map _ (fun _ _ h => h)
  exact (hmaple.and hnd).imp fun ⟨hle, hne⟩ => lt_of_le_of_ne hle hne

/-- Witness for claim C3 at concrete input: contest numbers of the stored
collection after merging A against B and C are strictly ascending. -/
theorem syncMergeSave_strict_ascending_witness :
    ([drawA].map (fun d => d.concurso)).Nodup ∧
    ([drawB, drawC].map (fun d => d.concurso)).Nodup ∧
    ((savedDraws (mergeDraws [drawA] [drawB, drawC])).map
      (fun d => d.concurso)).Pairwise (· < ·) :=
  ⟨by decide, by decide,
    syncMergeSave_strict_ascending [drawA] [drawB, drawC] (by decide) (by decide)⟩

/- ===== Batch partition lemmas ===== -/

theorem batches_nil : batches [] = [] := by
  rw [batches]
  simp

theorem batches_cons (l : List Int) (h : l ≠ []) :
    batches l = l.take batchSize :: batches (l.drop batchSize) := by
  rw [batches]
  simp [h]

theorem batches_eq_nil_iff (l : List Int) : batches l = [] ↔ l = [] := by
  constructor
  · intro h
    by_contra hne
    rw [batches_cons l hne] at h
    exact List.cons_ne_nil _ _ h
  · intro h
    subst h
    exact batches_nil

theorem batches_join (l : List Int) : (batches l).flatten = l := by
  suffices H : ∀ m (l : List Int), l.length = m → (batches l).flatten = l from
    H l.length l rfl
  intro m
  induction m using Nat.strong_induction_on with
  | _ m ih =>
    intro l hl
    by_cases h : l = []
    · subst h
      simp [batches_nil]
    · have hpos : 0 < l.length := List.length_pos.mpr h
      rw [batches_cons l h, List.flatten_cons,
        ih (l.drop batchSize).length
          (by simp only [List.length_drop, batchSize]; omega)
          (l.drop batchSize) rfl,
        List.take_append_drop]

theorem batches_sizes (l : List Int) :
    ∀ b ∈ batches l, b ≠ [] ∧ b.length ≤ batchSize := by
  suffices H : ∀ m (l : List Int), l.length = m →
      ∀ b ∈ batches l, b ≠ [] ∧ b.length ≤ batchSize from H l.length l rfl
  intro m
  induction m using Nat.strong_induction_on with
  | _ m ih =>
    intro l hl b hb
    by_cases h : l = []
    · subst h
      simp [batches_nil] at hb
    · have hpos : 0 < l.length := List.length_pos.mpr h
      rw [batches_cons l h] at hb
      rcases List.mem_cons.mp hb with rfl | hb
    
      · constructor
        · intro htake
          have := congrArg List.length htake
          simp only [List.length_take, List.length_nil, batchSize] at this
          omega
        · simp [List.length_take]
      · exact ih (l.drop batchSize).length
          (by simp only [List.length_drop, batchSize]; omega)
          (l.drop batchSize) rfl b hb

theorem batches_dropLast (l : List Int) :
    ∀ b ∈ (batches l).dropLast, b.length = batchSize := by
  suffices H : ∀ m (l : List Int), l.length = m →
      ∀ b ∈ (batches l).dropLast, b.length = batchSize from H l.length l rfl
  intro m
  induction m using Nat.strong_induction_on with
  | _ m ih =>
    intro l hl b hb
    by_cases h : l = []
    · subst h
      simp [batches_nil] at hb
    · have hpos : 0 < l.length := List.length_pos.mpr h
      rw [batches_cons l h] at hb
      by_cases hrest : l.drop batchSize = []
      · rw [hrest, batches_nil] at hb
        simp at hb
      · have hb2 : (batches (l.drop batchSize)) ≠ [] := by
          rw [Ne, batches_eq_nil_iff]
          exact hrest
        rw [List.dropLast_cons_of_ne_nil hb2] at hb
        rcases List.mem_cons.mp hb with rfl | hb
        · have hlen : batchSize < l.length := by
            have := List.length_pos.mpr hrest
            simp only [List.length_drop] at this
            omega
          simp [List.length_take]
          omega
        · exact ih (l.drop batchSize).length
            (by simp only [List.length_drop, batchSize]; omega)
            (l.drop batchSize) rfl b hb

theorem fetchContestsInBatches_nil (config : LotteryConfig)
    (api : Int → Option APIData) : fetchContestsInBatches config api [] = ([], []) := by
  rw [fetchContestsInBatches]
  simp

theorem fetchContestsInBatches_cons (config : LotteryConfig)
    (api : Int → Option APIData) (l : List Int) (h : l ≠ []) :
    fetchContestsInBatches config api l =
      ((l.take batchSize).filterMap (fetchOne config api) ++
        (fetchContestsInBatches config api (l.drop batchSize)).1,
       (!(l.drop batchSize).isEmpty) ::
        (fetchContestsInBatches config api (l.drop batchSize)).2) := by
  rw [fetchContestsInBatches]
  simp [h]

theorem fetchContestsInBatches_fst (config : LotteryConfig)
    (api : Int → Option APIData) (l : List Int) :
    (fetchContestsInBatches config api l).1 = l.filterMap (fetchOne config api) := by
  suffices H : ∀ m (l : List Int), l.length = m →
      (fetchContestsInBatches config api l).1 = l.filterMap (fetchOne config api) from
    H l.length l rfl
  intro m
  induction m using Nat.strong_induction_on with
  | _ m ih =>
    intro l hl
    by_cases h : l = []
    · subst h
      simp [fetchContestsInBatches_nil]
    · have hpos : 0 < l.length := List.length_pos.mpr h
      rw [fetchContestsInBatches_cons config api l h]
      simp only
      rw [ih (l.drop batchSize).length
        (by simp only [List.length_drop, batchSize]; omega)
        (l.drop batchSize) rfl]
      rw [← List.filterMap_append, List.take_append_drop]

theorem fetchContestsInBatches_fst_by_batches (config : LotteryConfig)
    (api : Int → Option APIData) (l : List Int) :
    (fetchContestsInBatches config api l).1 =
      ((batches l).map (fun b => b.filterMap (fetchOne config api))).flatten := by
  suffices H : ∀ m (l : List Int), l.length = m →
      (fetchContestsInBatches config api l).1 =
        ((batches l).map (fun b => b.filterMap (fetchOne config api))).flatten from
    H l.length l rfl
  intro m
  induction m using Nat.strong_induction_on with
  | _ m ih =>
    intro l hl
    by_cases h : l = []
    · subst h
      simp [fetchContestsInBatches_nil, batches_nil]
    · have hpos : 0 < l.length := List.length_pos.mpr h
      rw [fetchContestsInBatches_cons config api l h, batches_cons l h]
      simp only [List.map_cons, List.flatten_cons]
      rw [ih (l.drop batchSize).length
        (by simp only [List.length_drop, batchSize]; omega)
        (l.drop batchSize) rfl]

theorem fetchContestsInBatches_snd (config : LotteryConfig)
    (api : Int → Option APIData) (l : List Int) (h : l ≠ []) :
    (fetchContestsInBatches config api l).2 =
      List.replicate ((batches l).length - 1) true ++ [false] := by
  suffices H : ∀ m (l : List Int), l.length = m → l ≠ [] →
      (fetchContestsInBatches config api l).2 =
        List.replicate ((batches l).length - 1) true ++ [false] from
    H l.length l rfl h
  intro m
  induction m using Nat.strong_induction_on with
  | _ m ih =>
    intro l hl h
    have hpos : 0 < l.length := List.length_pos.mpr h
    rw [fetchContestsInBatches_cons config api l h, batches_cons l h]
    by_cases hrest : l.drop batchSize = []
    · rw [hrest]
      simp [fetchContestsInBatches_nil, batches_nil]
    · have hb2 : (batches (l.drop batchSize)) ≠ [] := by
        rw [Ne, batches_eq_nil_iff]
        exact hrest
      have hlen : 0 < (batches (l.drop batchSize)).length := List.length_pos.mpr hb2
      rw [ih (l.drop batchSize).length
        (by simp only [List.length_drop, batchSize]; omega)
        (l.drop batchSize) rfl hrest]
      have hEmpty : (l.drop batchSize).isEmpty = false := by
        simp [List.isEmpty_iff, hrest]
      rw [hEmpty]
      simp only [Bool.not_false, List.length_cons]
      rw [show (batches (l.drop batchSize)).length + 1 - 1 =
        ((batches (l.drop batchSize)).length - 1) + 1 by omega]
      rw [List.replicate_succ]
      simp

/- ===== Claim C7 ===== -/

/-- Claim C7: fetchContestsInBatches partitions the ordered missing list
into consecutive batches of the fixed size 5 (the last batch holding the
remainder), collects each batch completely before the next one starts, and
runs the inter batch delay after every batch except the last. -/
theorem fetchContestsInBatches_partition (config : LotteryConfig)
    (api : Int → Option APIData) (l : List Int) (h : l ≠ []) :
    (batches l).flatten = l ∧
    (∀ b ∈ batches l, b ≠ [] ∧ b.length ≤ batchSize) ∧
    (∀ b ∈ (batches l).dropLast, b.length = batchSize) ∧
    (fetchContestsInBatches config api l).1 =
      ((batches l).map (fun b => b.filterMap (fetchOne config api))).flatten ∧
    (fetchContestsInBatches config api l).2 =
      List.replicate ((batches l).length - 1) true ++ [false] :=
  ⟨batches_join l, batches_sizes l, batches_dropLast l,
    fetchContestsInBatches_fst_by_batches config api l,
    fetchContestsInBatches_snd config api l h⟩

theorem batches_twelve :
    batches [1, 2, 3, 4, 5, 6, 7, 8, 9, 10, 11, 12] =
      [[1, 2, 3, 4, 5], [6, 7, 8, 9, 10], [11, 12]] := by
  have e1 : ([1, 2, 3, 4, 5, 6, 7, 8, 9, 10, 11, 12] : List Int).take batchSize =
      [1, 2, 3, 4, 5] := by decide
  have e2 : ([1, 2, 3, 4, 5, 6, 7, 8, 9, 10, 11, 12] : List Int).drop batchSize =
      [6, 7, 8, 9, 10, 11, 12] := by decide
  have e3 : ([6, 7, 8, 9, 10, 11, 12] : List Int).take batchSize =
      [6, 7, 8, 9, 10] := by decide
  have e4 : ([6, 7, 8, 9, 10, 11, 12] : List Int).drop batchSize = [11, 12] := by
    decide
  have e5 : ([11, 12] : List Int).take batchSize = [11, 12] := by decide
  have e6 : ([11, 12] : List Int).drop batchSize = [] := by decide
  rw [batches_cons _ (by decide), e1, e2, batches_cons _ (by decide), e3, e4,
    batches_cons _ (by decide), e5, e6, batches_nil]

/-- Witness for claim C7 at the spec example: 12 missing contests yield
exactly 3 batches of sizes 5, 5 and 2, with a delay after each batch but
the last. -/
theorem fetchContestsInBatches_partition_witness :
    ((batches [1, 2, 3, 4, 5, 6, 7, 8, 9, 10, 11, 12]).map
      (fun b => b.length) = [5, 5, 2] ∧
     ([1, 2, 3, 4, 5, 6, 7, 8, 9, 10, 11, 12] : List Int) ≠ []) ∧
    ((batches [1, 2, 3, 4, 5, 6, 7, 8, 9, 10, 11, 12]).flatten =
        [1, 2, 3, 4, 5, 6, 7, 8, 9, 10, 11, 12] ∧
     (∀ b ∈ batches [1, 2, 3, 4, 5, 6, 7, 8, 9, 10, 11, 12],
        b ≠ [] ∧ b.length ≤ batchSize) ∧
     (∀ b ∈ (batches [1, 2, 3, 4, 5, 6, 7, 8, 9, 10, 11, 12]).dropLast,
        b.length = batchSize) ∧
     (fetchContestsInBatches lotofacilConfig (fun _ => none)
        [1, 2, 3, 4, 5, 6, 7, 8, 9, 10, 11, 12]).1 =
      ((batches [1, 2, 3, 4, 5, 6, 7, 8, 9, 10, 11, 12]).map
        (fun b => b.filterMap (fetchOne lotofacilConfig (fun _ => none)))).flatten ∧
     (fetchContestsInBatches lotofacilConfig (fun _ => none)
        [1, 2, 3, 4, 5, 6, 7, 8, 9, 10, 11, 12]).2 =
      List.replicate
        ((batches [1, 2, 3, 4, 5, 6, 7, 8, 9, 10, 11, 12]).length - 1) true ++
        [false]) :=
  ⟨⟨by rw [batches_twelve]; decide, by decide⟩,
    fetchContestsInBatches_partition lotofacilConfig (fun _ => none)
      [1, 2, 3, 4, 5, 6, 7, 8, 9, 10, 11, 12] (by decide)⟩

/- ===== Transformer lemmas ===== -/

theorem sortInts_perm (l : List Int) : List.Perm (sortInts l) l :=
  List.perm_insertionSort _ l

theorem sortInts_pairwise (l : List Int) : (sortInts l).Pairwise (· ≤ ·) :=
  List.sorted_insertionSort _ l

theorem coerceValid_bounds (config : LotteryConfig) (entry : Option Int) (x : Int)
    (h : coerceValid config entry = some x) :
    config.minNumber ≤ x ∧ x ≤ config.maxNumber := by
  cases entry with
  | none => simp [coerceValid] at h
  | some n =>
    simp only [coerceValid] at h
    by_cases hr : config.minNumber ≤ n ∧ n ≤ config.maxNumber
    · rw [if_pos hr] at h
      exact (Option.some.inj h) ▸ hr
    · rw [if_neg hr] at h
      exact absurd h (by simp)

theorem transformAPIData_none_of_few_valid (config : LotteryConfig)
    (apiData : APIData)
    (h : (validNums config (numbersOf apiData)).length < config.numbersCount) :
    transformAPIData config apiData = none := by
  unfold transformAPIData
  by_cases h1 : (numbersOf apiData).length < config.numbersCount
  · simp [h1]
  · have hle : (validNums config ((numbersOf apiData).take config.numbersCount)).length ≤
        (validNums config (numbersOf apiData)).length :=
      (((List.take_sublist _ _).filterMap _).length_le :)
    have hne : (validNums config ((numbersOf apiData).take config.numbersCount)).length ≠
        config.numbersCount := by omega
    simp [h1, hne]

/- ===== Claim C8 ===== -/

/-- Claim C8: a payload whose dezenas field holds fewer valid in range
entries than the drawn number count of the variant yields no record from
the transformer, contributes nothing to the collected draws of the batch
fetcher (whose output is exactly the filterMap of the per contest
pipeline), and its contest number lands in the failure list, the set of
contests the cycle drops and reports with console.warn. -/
theorem transform_invalid_not_added (config : LotteryConfig)
    (api : Int → Option APIData) (l : List Int) (c : Int) (pay : APIData)
    (hc : c ∈ l) (hapi : api c = some pay)
    (hval : (validNums config (numbersOf pay)).length < config.numbersCount) :
    transformAPIData config pay = none ∧
    fetchOne config api c = none ∧
    (fetchContestsInBatches config api l).1 = l.filterMap (fetchOne config api) ∧
    c ∈ failedContests config api l := by
  have ht : transformAPIData config pay = none :=
    transformAPIData_none_of_few_valid config pay hval
  have hf : fetchOne config api c = none := by
    simp [fetchOne, hapi, ht]
  refine ⟨ht, hf, fetchContestsInBatches_fst config api l, ?_⟩
  simp [failedContests, List.mem_filter, hc, hf]

/-- Witness for claim C8: the 14 number payload pay14 for the lotofacil
variant (15 numbers required) is rejected and contest 7 is reported as
failed. -/
theorem transform_invalid_not_added_witness :
    ((7 : Int) ∈ ([7] : List Int) ∧ api14 7 = some pay14 ∧
      (validNums lotofacilConfig (numbersOf pay14)).length <
        lotofacilConfig.numbersCount) ∧
    (transformAPIData lotofacilConfig pay14 = none ∧
     fetchOne lotofacilConfig api14 7 = none ∧
     (fetchContestsInBatches lotofacilConfig api14 [7]).1 =
       ([7] : List Int).filterMap (fetchOne lotofacilConfig api14) ∧
     (7 : Int) ∈ failedContests lotofacilConfig api14 [7]) :=
  ⟨⟨by decide, by decide, by decide⟩,
    transform_invalid_not_added lotofacilConfig api14 [7] 7 pay14
      (by decide) (by decide) (by decide)⟩

/- ===== Claim C9 ===== -/

/-- Counterexample to claim C9: the transformer accepts the payload payDup,
whose 15 in range entries contain the number 1 twice, and produces a record
whose numeros list has an internal duplicate.  No duplicate check exists in
transformAPIData. -/
theorem transformAPIData_duplicate_counterexample :
    (transformAPIData lotofacilConfig payDup).map (fun r => r.numeros) =
      some [1, 1, 2, 3, 4, 5, 6, 7, 8, 9, 10, 11, 12, 13, 14] ∧
    ¬ ([1, 1, 2, 3, 4, 5, 6, 7, 8, 9, 10, 11, 12, 13, 14] : List Int).Nodup := by
  constructor
  · decide
  · decide

/-- Claim C9 amended: every record the transformer produces has exactly the
configured number of entries, all within the configured range, sorted
ascending; freedom from internal duplicates is not guaranteed. -/
theorem transformAPIData_record_valid (config : LotteryConfig)
    (apiData : APIData) (r : Draw)
    (h : transformAPIData config apiData = some r) :
    r.numeros.length = config.numbersCount ∧
    (∀ x ∈ r.numeros, config.minNumber ≤ x ∧ x ≤ config.maxNumber) ∧
    r.numeros.Pairwise (· ≤ ·) := by
  unfold transformAPIData at h
  by_cases h1 : (numbersOf apiData).length < config.numbersCount
  · rw [if_pos h1] at h
    exact absurd h (by simp)
  · rw [if_neg h1] at h
    simp only at h
    by_cases h2 : (validNums config ((numbersOf apiData).take config.numbersCount)).length ≠
        config.numbersCount
    · rw [if_pos h2] at h
      exact absurd h (by simp)
    · rw [if_neg h2] at h
      push_neg at h2
      have hr := Option.some.inj h
      have hnum : r.numeros =
          sortInts (validNums config ((numbersOf apiData).take config.numbersCount)) := by
        rw [← hr]
      rw [hnum]
      refine ⟨?_, ?_, sortInts_pairwise _⟩
      · rw [(sortInts_perm _).length_eq, h2]
      · intro x hx
        have hxv := (sortInts_perm _).mem_iff.mp hx
        rcases List.mem_filterMap.mp hxv with ⟨entry, _, hco⟩
        exact coerceValid_bounds config entry x hco

/-- Witness for claim C9 amended at the well formed payload pay15: the
produced record has 15 entries, all between 1 and 25, sorted ascending. -/
theorem transformAPIData_record_valid_witness :
    transformAPIData lotofacilConfig pay15 = some rec15 ∧
    (rec15.numeros.length = lotofacilConfig.numbersCount ∧
     (∀ x ∈ rec15.numeros,
        lotofacilConfig.minNumber ≤ x ∧ x ≤ lotofacilConfig.maxNumber) ∧
     rec15.numeros.Pairwise (· ≤ ·)) :=
  ⟨by decide,
    transformAPIData_record_valid lotofacilConfig pay15 rec15 (by decide)⟩

/- ===== Range lemmas ===== -/

theorem rangeInt_mem (start stop c : Int) :
    c ∈ rangeInt start stop ↔ start ≤ c ∧ c ≤ stop := by
  unfold rangeInt
  rw [List.mem_map]
  constructor
  · rintro ⟨i, hi, rfl⟩
    rw [List.mem_range] at hi
    omega
  · rintro ⟨h1, h2⟩
    refine ⟨(c - start).toNat, ?_, ?_⟩
    · rw [List.mem_range]
      omega
    · omega

/- ===== Claim C1 ===== -/

/-- Counterexample to claim C1: with cached contests 1, 2, 4, 5 and remote
latest 6, syncData computes contestsToFetch as the single trailing contest
6; the interior hole 3 is not fetched, while the claim demands the missing
set 3 and 6. -/
theorem syncData_gap_counterexample :
    syncContestsToFetch false exDraws1 6 = [6] ∧
    (3 : Int) ∉ syncContestsToFetch false exDraws1 6 := by
  constructor
  · decide
  · decide

/-- Claim C1 amended: for a nonempty cache, the contests fetched by a sync
cycle are exactly the trailing range from max existing plus one up to the
remote latest (empty when the remote is not ahead); interior holes below
the cached maximum are never fetched. -/
theorem syncData_trailing_range (e : List Draw) (latest : Int) (he : e ≠ []) :
    ∀ c : Int, c ∈ syncContestsToFetch false e latest ↔
      maxConcurso e < c ∧ c ≤ latest := by
  intro c
  unfold syncContestsToFetch
  have hne : e.isEmpty = false := by
    simp [List.isEmpty_iff, he]
  rw [hne]
  simp only [Bool.false_or, Bool.or_false, if_neg (by simp : ¬ (false = true))]
  by_cases hlt : maxConcurso e < latest
  · rw [if_pos hlt, rangeInt_mem]
    omega
  · rw [if_neg hlt]
    simp only [List.not_mem_nil, false_iff]
    omega

/-- Witness for claim C1 amended at the cache 1, 2, 4, 5 and remote latest
6. -/
theorem syncData_trailing_range_witness :
    exDraws1 ≠ [] ∧
    (∀ c : Int, c ∈ syncContestsToFetch false exDraws1 6 ↔
      maxConcurso exDraws1 < c ∧ c ≤ 6) :=
  ⟨by decide, syncData_trailing_range exDraws1 6 (by decide)⟩

/- ===== Claim C2 ===== -/

/-- Counterexample to claim C2: with an empty cache and remote latest 2500,
syncData fetches contest 1, which lies outside the claimed bounded window
1501 to 2500; the default sync has no backfill window at all. -/
theorem syncData_empty_cache_counterexample :
    (1 : Int) ∈ syncContestsToFetch false [] 2500 ∧
    (1 : Int) ∉ rangeInt 1501 2500 := by
  constructor
  · simp only [syncContestsToFetch, List.isEmpty_nil, Bool.or_true, if_true]
    rw [rangeInt_mem]
    omega
  · rw [rangeInt_mem]
    omega

/-- Claim C2 amended: a sync cycle started from an empty cache fetches the
full range from contest 1 to the remote latest (syncData full sync branch);
the bounded 1000 contest window, max(1, latest - 999) to latest, is used
only by the downloadRecent script, which overrides syncData. -/
theorem syncData_empty_cache_ranges (latest : Int) :
    (∀ c : Int, c ∈ syncContestsToFetch false [] latest ↔ 1 ≤ c ∧ c ≤ latest) ∧
    (∀ c : Int, c ∈ downloadRecentContests latest ↔
      max 1 (latest - 999) ≤ c ∧ c ≤ latest) := by
  constructor
  · intro c
    simp only [syncContestsToFetch, List.isEmpty_nil, Bool.or_true, if_true]
    exact rangeInt_mem 1 latest c
  · intro c
    exact rangeInt_mem _ latest c

/- ===== Claim C6 ===== -/

/-- Counterexample to claim C6: saveToCache writes directly to the cache
path, so interrupting the write (operation index 1) can leave arbitrary
partial content observable at the cache path, equal neither to the prior
content OLD nor to the completed content NEW.  No write to temporary then
rename discipline exists in the code. -/
theorem saveToCache_not_atomic_counterexample :
    runInterrupted exampleFs (saveToCacheOps lotofacilConfig "NEW") 1 "PART"
        (cachePath lotofacilConfig) = some "PART" ∧
    exampleFs (cachePath lotofacilConfig) = some "OLD" ∧
    runOps exampleFs (saveToCacheOps lotofacilConfig "NEW")
        (cachePath lotofacilConfig) = some "NEW" ∧
    (some "PART" : Option String) ≠ some "OLD" ∧
    (some "PART" : Option String) ≠ some "NEW" := by
  refine ⟨?_, ?_, ?_, by decide, by decide⟩
  · decide
  · decide
  · decide

/-- Claim C6 amended: saveToCache performs exactly one file write, directly
to the final cache path (no temporary file, no rename); a completed save
stores the new content, and only an interruption arriving before the write
begins leaves the prior store untouched. -/
theorem saveToCache_direct_write (s : String → Option String)
    (config : LotteryConfig) (serialized : String) (partialContent : String) :
    runOps s (saveToCacheOps config serialized) (cachePath config) =
      some serialized ∧
    (saveToCacheOps config serialized).filterMap writeTarget = [cachePath config] ∧
    runInterrupted s (saveToCacheOps config serialized) 0 partialContent
        (cachePath config) = s (cachePath config) := by
  refine ⟨?_, ?_, ?_⟩
  · simp [saveToCacheOps, runOps, applyOp]
  · simp [saveToCacheOps, writeTarget]
  · simp [saveToCacheOps, runInterrupted, runOps]

/- ===== Claim C10 ===== -/

/-- Counterexample to claim C10: the malformed store document, whose draws
member is a string rather than an array, parses and passes both member
accesses, so loadFromCache returns it unchanged instead of the empty
collection. -/
theorem loadFromCache_malformed_counterexample :
    loadFromCache (FileState.parsed malformedStore) = malformedStore ∧
    specStoreDrawsIsArray malformedStore = false ∧
    specStoreDrawsIsArray emptyCollection = true ∧
    loadFromCache (FileState.parsed malformedStore) ≠ emptyCollection := by
  refine ⟨rfl, rfl, rfl, ?_⟩
  intro h
  have h1 : specStoreDrawsIsArray malformedStore = false := rfl
  rw [show loadFromCache (FileState.parsed malformedStore) = malformedStore from rfl]
    at h
  rw [h] at h1
  exact absurd h1 (by simp [specStoreDrawsIsArray, emptyCollection, lookupField])

/-- Claim C10 amended: loadFromCache returns the empty collection on every
failure path: missing file, read error, JSON parse failure, and any parsed
document whose draws or metadata member access fails (member missing or
null, or a non object base).  A parsed document passing both accesses is
returned as is, even when malformed in other respects. -/
theorem loadFromCache_failure_total :
    loadFromCache FileState.missing = emptyCollection ∧
    loadFromCache FileState.readError = emptyCollection ∧
    loadFromCache FileState.parseError = emptyCollection ∧
    ∀ v : JVal,
      (accessOK v "draws").isNone = true ∨ (accessOK v "metadata").isNone = true →
      loadFromCache (FileState.parsed v) = emptyCollection := by
  refine ⟨rfl, rfl, rfl, ?_⟩
  intro v h
  simp only [loadFromCache]
  cases hd : accessOK v "draws" with
  | none => rfl
  | some wd =>
    cases hm : accessOK v "metadata" with
    | none => rfl
    | some wm =>
      rw [hd, hm] at h
      simp at h

/-- Witness for claim C10 amended: a store whose JSON content is the bare
null value triggers the TypeError path and yields the empty collection. -/
theorem loadFromCache_failure_total_witness :
    ((accessOK JVal.jnull "draws").isNone = true ∨
      (accessOK JVal.jnull "metadata").isNone = true) ∧
    loadFromCache (FileState.parsed JVal.jnull) = emptyCollection :=
  ⟨Or.inl rfl, loadFromCache_failure_total.2.2.2 JVal.jnull (Or.inl rfl)⟩
